import Mathlib

/-!
Verification development for the package dependency-integrity core
(`AppInstallerRepositoryCore/PackageDependenciesValidation.cpp`).

The definitions below shallowly embed the two entry points
`ValidateManifestDependencies` and
`VerifyDependenciesStructureForManifestDelete`, together with their
helpers `GetDependencies`, `GetPackageLatestVersion` and
`ThrowOnManifestValidationFailed`, over a concrete model of the
external collaborators (the SQLite index, the version type, the
dependency graph builder).  Thrown exceptions are modelled with
`Except`: an exception becomes `Except.error`.
-/

set_option maxRecDepth 4000

/-- String literal constants used when the source builds error messages. -/
def spaceSep : String := " "

/-- Newline separator used by the failed-manifest error builder. -/
def lineSep : String := "\n"

/-- Separator between the dependent identifier and its version in messages. -/
def dotSep : String := "."

/-- Separator between two dependents in the enumeration message. -/
def commaSep : String := ", "

/-- The empty channel string used as the starting accumulator channel. -/
def emptyChannel : String := ""

/-- Modelled from the spec: a package identifier is an opaque normalized
string; lookups compare normalized identifiers for equality. -/
abbrev PackageId := String

/-- Modelled from the spec: a channel is an opaque string attached to a
stored version. -/
abbrev Channel := String

/-- Modelled from the spec: a `Version` (external `Utility::Version`) is a
totally ordered value with a distinguished "unknown" sentinel that is
strictly below every real version and is never a valid stored version.
Real versions are the parsed numeric parts, ordered lexicographically. -/
inductive Version where
  | unknown
  | release (parts : List Nat)
  deriving DecidableEq

/-- Lexicographic strict order on version parts. -/
def partsLt : List Nat → List Nat → Bool
  | [], [] => false
  | [], _ :: _ => true
  | _ :: _, [] => false
  | a :: as, b :: bs => if a < b then true else if a = b then partsLt as bs else false

/-- Modelled from the spec: the strict total order on versions; the
unknown sentinel never equals or exceeds any real version. -/
def Version.lt : Version → Version → Bool
  | .unknown, .unknown => false
  | .unknown, .release _ => true
  | .release _, .unknown => false
  | .release a, .release b => partsLt a b

/-- Modelled from the spec: test for the unknown sentinel. -/
def Version.isUnknown : Version → Bool
  | .unknown => true
  | .release _ => false

/-- Rendering of a version back to its string form, used only inside
error messages enumerating dependents. -/
def Version.toString : Version → String
  | .unknown => "Unknown"
  | .release parts => String.intercalate dotSep (parts.map (fun n => ToString.toString n))

/-- Modelled from the spec: the dependency kind discriminator; only
package-kind dependencies participate in graph construction. -/
inductive DependencyType where
  | Package
  | Other
  deriving DecidableEq

/-- Modelled from the spec: a dependency is (kind, target identifier,
minimum version). -/
structure Dependency where
  DepType : DependencyType
  Id : PackageId
  MinVersion : Version
  deriving DecidableEq

/-- A `DependencyList` is the collection underneath `Manifest::DependencyList`. -/
abbrev DependencyList := List Dependency

/-- Modelled from the spec: `DependencyList::Add` deduplicates by
(kind, target): adding a duplicate target is a no-op, so one node never
holds two edges to the same target. -/
def DependencyList.Add (l : DependencyList) (d : Dependency) : DependencyList :=
  if l.any (fun e => e.DepType == d.DepType && e.Id == d.Id) then l else l ++ [d]

/-- Modelled from the spec: one installer variant of a manifest, carrying
its declared dependencies of all kinds. -/
structure Installer where
  Dependencies : List Dependency
  deriving DecidableEq

/-- Modelled from the spec: a manifest is a package identifier, a version
and the installer variants with their declared dependencies. -/
structure Manifest where
  Id : PackageId
  Version : Version
  Installers : List Installer
  deriving DecidableEq

/-- Modelled from the spec: one stored manifest row of the index: its
version, its channel, and its stored dependency edges
(target identifier, minimum version). -/
structure ManifestRow where
  version : Version
  channel : Channel
  dependencies : List (PackageId × Version)
  deriving DecidableEq

/-- Modelled from the spec: a package stored in the index: its normalized
identifier and its stored manifest rows. -/
structure Package where
  pid : PackageId
  manifests : List ManifestRow
  deriving DecidableEq

/-- Modelled from the spec: the read snapshot of the index consulted by
both entry points. -/
structure SQLiteIndex where
  packages : List Package
  deriving DecidableEq

/-- `DependentManifestInfo` from the source: identifier and version of a
dependent manifest, as recovered from index properties. -/
structure DependentManifestInfo where
  Id : PackageId
  Version : Version
  deriving DecidableEq

/-- One fold step of the maximum-version selection loop of
`GetPackageLatestVersion`: skip excluded versions, keep the strictly
greater one. -/
def maxStep (exclusions : List Version) (acc entry : Version × Channel) : Version × Channel :=
  if exclusions.contains entry.1 then acc
  else if Version.lt acc.1 entry.1 then entry else acc

/-- The maximum (version, channel) among stored keys, starting from the
unknown sentinel, skipping exclusions, exactly as the loop in
`GetPackageLatestVersion`. -/
def maxVersionAndChannel (vac : List (Version × Channel)) (exclusions : List Version) :
    Version × Channel :=
  vac.foldl (maxStep exclusions) (Version.unknown, emptyChannel)

/-- `GetPackageLatestVersion` from the source: search the package by
identifier, enumerate its stored (version, channel) keys, select the
maximum non-excluded version, and resolve it back to a manifest row.
The final resolution step dereferences an optional (`.value()`); a
failed dereference is modelled as `Except.error ()`. -/
def GetPackageLatestVersion (index : SQLiteIndex) (packageId : PackageId)
    (exclusions : List Version) : Except Unit (Option (ManifestRow × Version)) :=
  match index.packages.find? (fun p => p.pid == packageId) with
  | none => Except.ok none
  | some pkg =>
    let vac := pkg.manifests.map (fun r => (r.version, r.channel))
    if vac.isEmpty then Except.ok none
    else
      let maxVersion := maxVersionAndChannel vac exclusions
      if maxVersion.1.isUnknown then Except.ok none
      else
        match pkg.manifests.find? (fun r => r.version == maxVersion.1 && r.channel == maxVersion.2) with
        | some row => Except.ok (some (row, maxVersion.1))
        | none => Except.error ()

/-- Total unwrapping of `GetPackageLatestVersion` used by the callers;
the error branch is unreachable on every index state because the winning
(version, channel) key always comes from a stored manifest row. -/
def getPackageLatest (index : SQLiteIndex) (packageId : PackageId)
    (exclusions : List Version) : Option (ManifestRow × Version) :=
  match GetPackageLatestVersion index packageId exclusions with
  | Except.ok r => r
  | Except.error _ => none

/-- `GetDependencies` from the source: gather the manifest's declared
dependencies of one kind across all installer variants, collapsing
duplicates through `DependencyList.Add`. -/
def GetDependencies (manifest : Manifest) (dependencyType : DependencyType) : DependencyList :=
  manifest.Installers.foldl
    (fun depList installer =>
      (installer.Dependencies.filter (fun d => d.DepType == dependencyType)).foldl
        DependencyList.Add depList)
    []

/-- Modelled from the spec: error message constants of the external
`ManifestError` table; distinct messages for distinct error kinds. -/
def ManifestError.MissingManifestDependenciesNode : String :=
  "Manifest dependency is missing from the repository"

/-- Modelled from the spec: message for a latest version below the
required minimum. -/
def ManifestError.NoSuitableMinVersion : String :=
  "No Suitable Minimum Version"

/-- Modelled from the spec: message for a dependency loop. -/
def ManifestError.FoundLoop : String :=
  "Dependency loop found"

/-- Modelled from the spec: message for deleting the only version of a
package that has dependents. -/
def ManifestError.SingleManifestPackageHasDependencies : String :=
  "Deleting the only version of a package that has dependents is not allowed"

/-- Modelled from the spec: message for deleting a version that breaking
dependents still require. -/
def ManifestError.MultiManifestPackageHasDependencies : String :=
  "Deleting this version would break manifests that depend on it"

/-- The exceptions thrown by this translation unit: a manifest validation
exception carrying its validation error messages, and the fatal
missing-package error of the delete path. -/
inductive WinGetError where
  | ManifestException (errors : List String)
  | MissingPackage
  deriving DecidableEq

/-- The dependent enumeration string built by
`ThrowOnManifestValidationFailed`: first dependent as `id.version`, the
rest appended with a comma separator. -/
def renderDependents : List (DependentManifestInfo × Version) → String
  | [] => emptyChannel
  | first :: rest =>
    rest.foldl
      (fun acc current => acc ++ commaSep ++ current.1.Id ++ dotSep ++ current.1.Version.toString)
      (first.1.Id ++ dotSep ++ first.1.Version.toString)

/-- `ThrowOnManifestValidationFailed` from the source: build the single
validation error whose message appends the enumerated dependents to the
base error, wrapped in a manifest exception. -/
def ThrowOnManifestValidationFailed (failedManifests : List (DependentManifestInfo × Version))
    (error : String) : WinGetError :=
  WinGetError.ManifestException [error ++ lineSep ++ renderDependents failedManifests]

/-- Modelled from the spec: `GetDependentsById` composed with the
property lookups of the source: every stored manifest row that declares
a dependency edge onto the queried identifier yields one dependent
record (dependent identifier and version, required minimum version). -/
def GetDependentsById (index : SQLiteIndex) (packageId : PackageId) :
    List (DependentManifestInfo × Version) :=
  index.packages.foldr
    (fun p acc =>
      p.manifests.foldr
        (fun m acc2 =>
          ((m.dependencies.filter (fun d => d.1 == packageId)).map
            (fun d => (DependentManifestInfo.mk p.pid m.version, d.2))) ++ acc2)
        acc)
    []

/-- The expansion callback `ValidateManifestDependencies` hands to the
graph builder, written as a pure function returning the child list and
the validation errors it records: the root (identifier equal to the
manifest under validation) expands to the manifest's own declared
package dependencies; any other node resolves its target's latest
version, records a missing-dependency or unsatisfied-minimum error with
an empty child list on failure, and otherwise expands to the stored
dependency edges of the resolved latest manifest row. -/
def validatorExpand (index : SQLiteIndex) (manifest : Manifest) (node : Dependency) :
    DependencyList × List String :=
  if node.Id = manifest.Id then
    (GetDependencies manifest DependencyType.Package, [])
  else
    match getPackageLatest index node.Id [] with
    | none =>
      ([], [ManifestError.MissingManifestDependenciesNode ++ spaceSep ++ node.Id])
    | some packageLatest =>
      if Version.lt packageLatest.2 node.MinVersion then
        ([], [ManifestError.NoSuitableMinVersion ++ spaceSep ++ node.Id])
      else
        (packageLatest.1.dependencies.foldl
          (fun depList row => DependencyList.Add depList (Dependency.mk DependencyType.Package row.1 row.2))
          [], [])

/-- Modelled from the spec: the graph builder loop. It pops pending
nodes from the front of the work queue; a node already expanded (present
in the adjacency map, keyed by target identifier) is skipped, otherwise
its expansion is recorded and every child not yet known is enqueued.
Errors recorded by the expansion callback are accumulated. The fuel
argument bounds the number of pops. -/
def buildGraphAux (expand : Dependency → DependencyList × List String) :
    Nat → List Dependency → List (PackageId × DependencyList) → List String →
    List (PackageId × DependencyList) × List String
  | 0, _, adj, errs => (adj, errs)
  | _ + 1, [], adj, errs => (adj, errs)
  | fuel + 1, node :: rest, adj, errs =>
    if adj.any (fun p => p.1 == node.Id) then
      buildGraphAux expand fuel rest adj errs
    else
      let r := expand node
      let adj2 := adj ++ [(node.Id, r.1)]
      let toEnqueue := r.1.filter
        (fun c => !(adj2.any (fun p => p.1 == c.Id) || rest.any (fun d => d.Id == c.Id)))
      buildGraphAux expand fuel (rest ++ toEnqueue) adj2 (errs ++ r.2)

/-- Total count of stored dependency edges in the index, used to bound
the graph construction work. -/
def indexEdgeCount (index : SQLiteIndex) : Nat :=
  index.packages.foldl
    (fun acc p => p.manifests.foldl (fun acc2 m => acc2 + m.dependencies.length) acc) 0

/-- Fuel sufficient for the builder: every expansion enqueues at most
its children, and children come from the manifest's own declared
dependencies or from stored edges of the index. -/
def buildFuel (index : SQLiteIndex) (manifest : Manifest) : Nat :=
  2 + (GetDependencies manifest DependencyType.Package).length
    + indexEdgeCount index + index.packages.length

/-- The synthetic root node of the validation graph: a package-kind
self dependency built from the manifest's identifier and version. -/
def rootDependency (manifest : Manifest) : Dependency :=
  Dependency.mk DependencyType.Package manifest.Id manifest.Version

/-- The adjacency map and accumulated errors produced by building the
validation graph of a manifest against an index. -/
def buildValidationGraph (index : SQLiteIndex) (manifest : Manifest) :
    List (PackageId × DependencyList) × List String :=
  buildGraphAux (validatorExpand index manifest) (buildFuel index manifest)
    [rootDependency manifest] [] []

/-- Successor identifiers of a node in the recorded adjacency map. -/
def successorsOf (adj : List (PackageId × DependencyList)) (x : PackageId) : List PackageId :=
  match adj.find? (fun p => p.1 == x) with
  | some p => p.2.map (fun d => d.Id)
  | none => []

/-- Iterated forward closure over the recorded edges, used by the cycle
check. -/
def reachClosure (adj : List (PackageId × DependencyList)) :
    Nat → List PackageId → List PackageId
  | 0, visited => visited
  | n + 1, visited =>
    let next := (visited.foldr (fun x acc => successorsOf adj x ++ acc) []).filter
      (fun x => !visited.contains x)
    if next.isEmpty then visited else reachClosure adj n (visited ++ next)

/-- Modelled from the spec: `HasLoop` holds exactly when some node has a
path of length at least one through the recorded edges back to itself,
self-loops included. -/
def hasLoop (adj : List (PackageId × DependencyList)) : Bool :=
  adj.any (fun p =>
    (reachClosure adj
      (adj.length + adj.foldl (fun acc q => acc + q.2.length) 0 + 1)
      (successorsOf adj p.1)).contains p.1)

/-- `PackageDependenciesValidation::ValidateManifestDependencies` from the
source: build the dependency graph of the manifest; if any expansion
recorded an error, throw the manifest exception with the accumulated
errors; otherwise if the graph has a loop, throw the single loop error;
otherwise succeed. -/
def ValidateManifestDependencies (index : SQLiteIndex) (manifest : Manifest) :
    Except WinGetError Bool :=
  if !(buildValidationGraph index manifest).2.isEmpty then
    Except.error (WinGetError.ManifestException (buildValidationGraph index manifest).2)
  else if hasLoop (buildValidationGraph index manifest).1 then
    Except.error (WinGetError.ManifestException [ManifestError.FoundLoop])
  else
    Except.ok true

/-- `PackageDependenciesValidation::VerifyDependenciesStructureForManifestDelete`
from the source: succeed when the package has no recorded dependents;
otherwise resolve the current latest version (its absence is the fatal
missing-package error), succeed when the deleted version is strictly
below it, otherwise resolve the successor latest excluding the current
latest version: its absence throws the single-version error enumerating
every dependent, and otherwise the dependents whose required minimum is
strictly above the successor are thrown as breaking dependents when any
exist. -/
def VerifyDependenciesStructureForManifestDelete (index : SQLiteIndex) (manifest : Manifest) :
    Except WinGetError Bool :=
  if (GetDependentsById index manifest.Id).isEmpty then
    Except.ok true
  else
    match getPackageLatest index manifest.Id [] with
    | none => Except.error WinGetError.MissingPackage
    | some packageLatest =>
      if Version.lt manifest.Version packageLatest.2 then
        Except.ok true
      else
        match getPackageLatest index manifest.Id [packageLatest.2] with
        | none =>
          Except.error (ThrowOnManifestValidationFailed (GetDependentsById index manifest.Id)
            ManifestError.SingleManifestPackageHasDependencies)
        | some nextLatestAfterDelete =>
          if ((GetDependentsById index manifest.Id).filter
              (fun current => Version.lt nextLatestAfterDelete.2 current.2)).isEmpty then
            Except.ok true
          else
            Except.error (ThrowOnManifestValidationFailed
              ((GetDependentsById index manifest.Id).filter
                (fun current => Version.lt nextLatestAfterDelete.2 current.2))
              ManifestError.MultiManifestPackageHasDependencies)

/-- The delete check as the specification words it: the successor latest
is resolved by excluding exactly the version being deleted
(`manifest.Version`) rather than the current latest version; everything
else is unchanged. -/
def VerifyDeleteExcludingDeletedVersion (index : SQLiteIndex) (manifest : Manifest) :
    Except WinGetError Bool :=
  if (GetDependentsById index manifest.Id).isEmpty then
    Except.ok true
  else
    match getPackageLatest index manifest.Id [] with
    | none => Except.error WinGetError.MissingPackage
    | some packageLatest =>
      if Version.lt manifest.Version packageLatest.2 then
        Except.ok true
      else
        match getPackageLatest index manifest.Id [manifest.Version] with
        | none =>
          Except.error (ThrowOnManifestValidationFailed (GetDependentsById index manifest.Id)
            ManifestError.SingleManifestPackageHasDependencies)
        | some nextLatestAfterDelete =>
          if ((GetDependentsById index manifest.Id).filter
              (fun current => Version.lt nextLatestAfterDelete.2 current.2)).isEmpty then
            Except.ok true
          else
            Except.error (ThrowOnManifestValidationFailed
              ((GetDependentsById index manifest.Id).filter
                (fun current => Version.lt nextLatestAfterDelete.2 current.2))
              ManifestError.MultiManifestPackageHasDependencies)

/-- Modelled from the spec: expansion order is unspecified for the graph
builder; this variant services the pending-node queue from the back
instead of the front, everything else unchanged. -/
def buildGraphAuxBack (expand : Dependency → DependencyList × List String) :
    Nat → List Dependency → List (PackageId × DependencyList) → List String →
    List (PackageId × DependencyList) × List String
  | 0, _, adj, errs => (adj, errs)
  | fuel + 1, queue, adj, errs =>
    match queue.reverse with
    | [] => (adj, errs)
    | node :: restRev =>
      let rest := restRev.reverse
      if adj.any (fun p => p.1 == node.Id) then
        buildGraphAuxBack expand fuel rest adj errs
      else
        let r := expand node
        let adj2 := adj ++ [(node.Id, r.1)]
        let toEnqueue := r.1.filter
          (fun c => !(adj2.any (fun p => p.1 == c.Id) || rest.any (fun d => d.Id == c.Id)))
        buildGraphAuxBack expand fuel (rest ++ toEnqueue) adj2 (errs ++ r.2)

/-- The validation graph built while servicing the queue from the back. -/
def buildValidationGraphBack (index : SQLiteIndex) (manifest : Manifest) :
    List (PackageId × DependencyList) × List String :=
  buildGraphAuxBack (validatorExpand index manifest) (buildFuel index manifest)
    [rootDependency manifest] [] []

/-- The validator run over the back-serviced builder variant; the
specification leaves the traversal order of the builder unspecified. -/
def ValidateManifestDependenciesBack (index : SQLiteIndex) (manifest : Manifest) :
    Except WinGetError Bool :=
  if !(buildValidationGraphBack index manifest).2.isEmpty then
    Except.error (WinGetError.ManifestException (buildValidationGraphBack index manifest).2)
  else if hasLoop (buildValidationGraphBack index manifest).1 then
    Except.error (WinGetError.ManifestException [ManifestError.FoundLoop])
  else
    Except.ok true

/-- Concrete package identifier used in the worked examples. -/
def pidA : PackageId := "A"

/-- Concrete package identifier used in the worked examples. -/
def pidB : PackageId := "B"

/-- Concrete package identifier used in the worked examples. -/
def pidM : PackageId := "M"

/-- Concrete package identifier used in the worked examples. -/
def pidP : PackageId := "P"

/-- Concrete package identifier used in the worked examples. -/
def pidX : PackageId := "X"

/-- Concrete package identifier used in the worked examples. -/
def pidD1 : PackageId := "D1"

/-- Concrete package identifier used in the worked examples. -/
def pidD2 : PackageId := "D2"

/-- Concrete package identifier used in the worked examples. -/
def pidZ : PackageId := "Z"

/-- Version 1 of the worked examples. -/
def ver1 : Version := Version.release [1]

/-- Version 2 of the worked examples. -/
def ver2 : Version := Version.release [2]

/-- Version 1.5 of the worked examples. -/
def ver15 : Version := Version.release [1, 5]

/-- Index with package A at version 1 and a dependent B requiring A at
least at version 1; the deleted manifest claims version 2 of A, which is
absent from the index. -/
def c1Index : SQLiteIndex := SQLiteIndex.mk
  [Package.mk pidA [ManifestRow.mk ver1 emptyChannel []],
   Package.mk pidB [ManifestRow.mk ver1 emptyChannel [(pidA, ver1)]]]

/-- Manifest naming a version of A that is above everything stored. -/
def c1Manifest : Manifest := Manifest.mk pidA ver2 []

/-- Index for the breaking-dependents example: P stores versions 1 and 2,
D1 requires P at least 1, D2 requires P at least 2. -/
def c4Index : SQLiteIndex := SQLiteIndex.mk
  [Package.mk pidP [ManifestRow.mk ver1 emptyChannel [], ManifestRow.mk ver2 emptyChannel []],
   Package.mk pidD1 [ManifestRow.mk ver1 emptyChannel [(pidP, ver1)]],
   Package.mk pidD2 [ManifestRow.mk ver1 emptyChannel [(pidP, ver2)]]]

/-- The latest manifest of P (version 2) being deleted. -/
def c4Manifest : Manifest := Manifest.mk pidP ver2 []

/-- Index for the single-version example: P stores only version 1 and D1
depends on it. -/
def c5Index : SQLiteIndex := SQLiteIndex.mk
  [Package.mk pidP [ManifestRow.mk ver1 emptyChannel []],
   Package.mk pidD1 [ManifestRow.mk ver1 emptyChannel [(pidP, ver1)]]]

/-- The sole manifest of P being deleted. -/
def c5Manifest : Manifest := Manifest.mk pidP ver1 []

/-- Index for the non-latest delete example: P stores versions 1 and 2
and D1 requires P at least at version 2. -/
def c6Index : SQLiteIndex := SQLiteIndex.mk
  [Package.mk pidP [ManifestRow.mk ver1 emptyChannel [], ManifestRow.mk ver2 emptyChannel []],
   Package.mk pidD1 [ManifestRow.mk ver1 emptyChannel [(pidP, ver2)]]]

/-- The non-latest manifest of P (version 1) being deleted. -/
def c6Manifest : Manifest := Manifest.mk pidP ver1 []

/-- Index for the unsatisfied-minimum example: A stores only version 1. -/
def c7Index : SQLiteIndex := SQLiteIndex.mk
  [Package.mk pidA [ManifestRow.mk ver1 emptyChannel []]]

/-- Manifest under validation in the unsatisfied-minimum example. -/
def c7Manifest : Manifest := Manifest.mk pidM ver1 []

/-- A non-root node requiring A at least at version 2. -/
def c7Node : Dependency := Dependency.mk DependencyType.Package pidA ver2

/-- Manifest whose two installers both declare the package dependency on
A (and one also declares a non-package dependency on B). -/
def c8Manifest : Manifest := Manifest.mk pidM ver1
  [Installer.mk [Dependency.mk DependencyType.Package pidA ver1,
                 Dependency.mk DependencyType.Other pidB ver1],
   Installer.mk [Dependency.mk DependencyType.Package pidA ver1]]

/-- Empty index for the root-expansion example. -/
def c8Index : SQLiteIndex := SQLiteIndex.mk []

/-- Empty index for the missing-dependency example. -/
def c3Index : SQLiteIndex := SQLiteIndex.mk []

/-- Manifest declaring a dependency on the absent package A. -/
def c3Manifest : Manifest := Manifest.mk pidM ver1
  [Installer.mk [Dependency.mk DependencyType.Package pidA ver1]]

/-- Index where X (latest 1.5) is required at least at version 1 by A and
at least at version 2 by B. -/
def c9Index : SQLiteIndex := SQLiteIndex.mk
  [Package.mk pidA [ManifestRow.mk ver1 emptyChannel [(pidX, ver1)]],
   Package.mk pidB [ManifestRow.mk ver1 emptyChannel [(pidX, ver2)]],
   Package.mk pidX [ManifestRow.mk ver15 emptyChannel []]]

/-- Manifest depending on A and on B, in that order. -/
def c9Manifest : Manifest := Manifest.mk pidM ver1
  [Installer.mk [Dependency.mk DependencyType.Package pidA ver1,
                 Dependency.mk DependencyType.Package pidB ver1]]

/-- Empty index for the idempotence example. -/
def c9wIndex : SQLiteIndex := SQLiteIndex.mk []

/-- Manifest declaring a dependency on the absent package B. -/
def c9wManifest : Manifest := Manifest.mk pidM ver1
  [Installer.mk [Dependency.mk DependencyType.Package pidB ver1]]

/-- Index that stores only package A; used by the no-dependents example. -/
def c10Index : SQLiteIndex := SQLiteIndex.mk
  [Package.mk pidA [ManifestRow.mk ver1 emptyChannel []]]

/-- Manifest of the entirely absent package Z with no dependents. -/
def c10Manifest : Manifest := Manifest.mk pidZ ver1 []

/-- The shape of every error recorded during graph expansion: a missing
dependency message or an unsatisfied minimum-version message, tagged
with the node identifier. -/
def IsStructuralError (e : String) : Prop :=
  (∃ i : PackageId, e = ManifestError.MissingManifestDependenciesNode ++ spaceSep ++ i) ∨
  (∃ i : PackageId, e = ManifestError.NoSuitableMinVersion ++ spaceSep ++ i)

/-- No two entries of the list share a dependency kind and target
identifier. -/
def noDupKeys (l : DependencyList) : Prop :=
  List.Pairwise (fun a b => a.DepType ≠ b.DepType ∨ a.Id ≠ b.Id) l

/-- Reflexivity never holds for the strict lexicographic part order. -/
theorem partsLt_irrefl : ∀ l : List Nat, partsLt l l = false
  | [] => rfl
  | a :: as => by
    unfold partsLt
    simp [Nat.lt_irrefl, partsLt_irrefl as]

/-- The version order is irreflexive. -/
theorem Version.lt_irrefl : ∀ v : Version, Version.lt v v = false
  | .unknown => rfl
  | .release parts => partsLt_irrefl parts

/-- One step of the maximum selection returns either the accumulator or
the current entry. -/
theorem maxStep_cases (exclusions : List Version) (acc entry : Version × Channel) :
    maxStep exclusions acc entry = acc ∨ maxStep exclusions acc entry = entry := by
  unfold maxStep
  split
  · exact Or.inl rfl
  · split
    · exact Or.inr rfl
    · exact Or.inl rfl

/-- The maximum selection loop returns the initial accumulator or an
element of the traversed list. -/
theorem foldl_maxStep_mem (exclusions : List Version) :
    ∀ (l : List (Version × Channel)) (init : Version × Channel),
      l.foldl (maxStep exclusions) init = init ∨ l.foldl (maxStep exclusions) init ∈ l
  | [], _ => Or.inl rfl
  | v :: rest, init => by
    have h := foldl_maxStep_mem exclusions rest (maxStep exclusions init v)
    simp only [List.foldl_cons]
    rcases h with h | h
    · rcases maxStep_cases exclusions init v with h2 | h2
      · rw [h, h2]; exact Or.inl rfl
      · rw [h, h2]; exact Or.inr (List.mem_cons_self _ _)
    · exact Or.inr (List.mem_cons_of_mem _ h)

/-- A list with an element satisfying the search predicate has a
successful search. -/
theorem find?_isSome_of_exists {α : Type} (p : α → Bool) :
    ∀ l : List α, (∃ x ∈ l, p x = true) → ∃ y, l.find? p = some y
  | [], h => absurd h (by simp)
  | a :: rest, h => by
    by_cases hpa : p a = true
    · exact ⟨a, by simp [List.find?, hpa]⟩
    · rcases h with ⟨x, hx, hpx⟩
      rcases List.mem_cons.mp hx with h1 | h1
      · subst h1; exact absurd hpx hpa
      · obtain ⟨y, hy⟩ := find?_isSome_of_exists p rest ⟨x, h1, hpx⟩
        rw [Bool.not_eq_true] at hpa
        exact ⟨y, by simp [List.find?, hpa, hy]⟩

/-- Claim C2: the version resolver never raises: on every index state,
package identifier and exclusion set, `GetPackageLatestVersion` returns
an `ok` result — an empty optional for absence (package not found, no
stored versions, or nothing above the unknown sentinel once exclusions
are removed), otherwise the resolved manifest row paired with the
winning version; the optional dereference of the final resolution step
never fails. -/
theorem GetPackageLatestVersion_never_raises (index : SQLiteIndex) (packageId : PackageId)
    (exclusions : List Version) :
    ∃ r : Option (ManifestRow × Version),
      GetPackageLatestVersion index packageId exclusions = Except.ok r := by
  cases hfind : index.packages.find? (fun p => p.pid == packageId) with
  | none => exact ⟨none, by simp [GetPackageLatestVersion, hfind]⟩
  | some pkg =>
    by_cases hempty : (pkg.manifests.map (fun r => (r.version, r.channel))).isEmpty = true
    · exact ⟨none, by simp [GetPackageLatestVersion, hfind, hempty]⟩
    · by_cases hunk : (maxVersionAndChannel (pkg.manifests.map (fun r => (r.version, r.channel)))
          exclusions).1.isUnknown = true
      · exact ⟨none, by simp [GetPackageLatestVersion, hfind, hempty, hunk]⟩
      · have hmem : maxVersionAndChannel (pkg.manifests.map (fun r => (r.version, r.channel)))
            exclusions ∈ pkg.manifests.map (fun r => (r.version, r.channel)) := by
          rcases foldl_maxStep_mem exclusions (pkg.manifests.map (fun r => (r.version, r.channel)))
              (Version.unknown, emptyChannel) with h | h
          · exfalso
            apply hunk
            unfold maxVersionAndChannel
            rw [h]
            rfl
          · unfold maxVersionAndChannel
            exact h
        rcases List.mem_map.mp hmem with ⟨r0, hr0, hr0eq⟩
        have hex : ∃ x ∈ pkg.manifests,
            (x.version == (maxVersionAndChannel (pkg.manifests.map (fun r => (r.version, r.channel)))
                exclusions).1 &&
              x.channel == (maxVersionAndChannel (pkg.manifests.map (fun r => (r.version, r.channel)))
                exclusions).2) = true := by
          refine ⟨r0, hr0, ?_⟩
          rw [← hr0eq]
          simp
        obtain ⟨y, hy⟩ := find?_isSome_of_exists _ pkg.manifests hex
        exact ⟨some (y, (maxVersionAndChannel (pkg.manifests.map (fun r => (r.version, r.channel)))
            exclusions).1),
          by simp [GetPackageLatestVersion, hfind, hempty, hunk, hy]⟩

/-- Every error recorded by the expansion callback is structural. -/
theorem validatorExpand_errors_structural (index : SQLiteIndex) (manifest : Manifest)
    (node : Dependency) :
    ∀ e ∈ (validatorExpand index manifest node).2, IsStructuralError e := by
  intro e he
  unfold validatorExpand at he
  split at he
  · simp at he
  · split at he
    · simp only [List.mem_singleton] at he
      exact Or.inl ⟨node.Id, he⟩
    · split at he
      · simp only [List.mem_singleton] at he
        exact Or.inr ⟨node.Id, he⟩
      · simp at he

/-- Every error accumulated by the builder loop beyond its starting
accumulator is structural. -/
theorem buildGraphAux_errors_structural (index : SQLiteIndex) (manifest : Manifest) :
    ∀ (fuel : Nat) (queue : List Dependency) (adj : List (PackageId × DependencyList))
      (errs : List String),
      (∀ e ∈ errs, IsStructuralError e) →
      ∀ e ∈ (buildGraphAux (validatorExpand index manifest) fuel queue adj errs).2,
        IsStructuralError e := by
  intro fuel
  induction fuel with
  | zero =>
    intro queue adj errs h e he
    simp only [buildGraphAux] at he
    exact h e he
  | succ fuel ih =>
    intro queue adj errs h e he
    cases queue with
    | nil =>
      simp only [buildGraphAux] at he
      exact h e he
    | cons node rest =>
      simp only [buildGraphAux] at he
      split at he
      · exact ih rest adj errs h e he
      · refine ih _ _ _ ?_ e he
        intro e2 he2
        rcases List.mem_append.mp he2 with h2 | h2
        · exact h e2 h2
        · exact validatorExpand_errors_structural index manifest node e2 h2

/-- The dependency-loop message is not a structural error message. -/
theorem foundLoop_not_structural : ¬ IsStructuralError ManifestError.FoundLoop := by
  rintro (⟨i, hi⟩ | ⟨i, hi⟩)
  · have hlen := congrArg String.length hi
    rw [String.length_append, String.length_append] at hlen
    have hlt : ManifestError.FoundLoop.length <
        ManifestError.MissingManifestDependenciesNode.length := by decide
    omega
  · have hlen := congrArg String.length hi
    rw [String.length_append, String.length_append] at hlen
    have hlt : ManifestError.FoundLoop.length <
        ManifestError.NoSuitableMinVersion.length := by decide
    omega

/-- Claim C3: error priority of `ValidateManifestDependencies`: when any
node recorded a structural error during expansion, the call fails with
exactly the accumulated error list and that list never contains the
dependency-loop error; the single loop error is reported only when no
structural error was recorded and the graph has a loop; otherwise the
call succeeds. -/
theorem ValidateManifestDependencies_error_priority (index : SQLiteIndex) (manifest : Manifest) :
    ((buildValidationGraph index manifest).2.isEmpty = false →
      ValidateManifestDependencies index manifest =
        Except.error (WinGetError.ManifestException (buildValidationGraph index manifest).2) ∧
      ManifestError.FoundLoop ∉ (buildValidationGraph index manifest).2) ∧
    ((buildValidationGraph index manifest).2.isEmpty = true →
      hasLoop (buildValidationGraph index manifest).1 = true →
      ValidateManifestDependencies index manifest =
        Except.error (WinGetError.ManifestException [ManifestError.FoundLoop])) ∧
    ((buildValidationGraph index manifest).2.isEmpty = true →
      hasLoop (buildValidationGraph index manifest).1 = false →
      ValidateManifestDependencies index manifest = Except.ok true) := by
  refine ⟨fun h1 => ⟨?_, ?_⟩, fun h1 h2 => ?_, fun h1 h2 => ?_⟩
  · simp [ValidateManifestDependencies, h1]
  · intro hmem
    exact foundLoop_not_structural
      (buildGraphAux_errors_structural index manifest (buildFuel index manifest)
        [rootDependency manifest] [] [] (by intro e he; simp at he)
        ManifestError.FoundLoop hmem)
  · simp [ValidateManifestDependencies, h1, h2]
  · simp [ValidateManifestDependencies, h1, h2]

/-- Witness for claim C3: validating a manifest that depends on the
absent package A fails with exactly the accumulated structural error
list, which does not contain the loop error. -/
theorem ValidateManifestDependencies_error_priority_witness :
    ValidateManifestDependencies c3Index c3Manifest =
      Except.error (WinGetError.ManifestException (buildValidationGraph c3Index c3Manifest).2) ∧
    ManifestError.FoundLoop ∉ (buildValidationGraph c3Index c3Manifest).2 :=
  (ValidateManifestDependencies_error_priority c3Index c3Manifest).1 rfl

/-- Claim C7: a non-root node whose package resolves to a latest version
strictly below the node's required minimum makes the expansion callback
record exactly one unsatisfied-minimum error tagged with the node
identifier and return an empty child list. -/
theorem validatorExpand_unsatisfied_minimum (index : SQLiteIndex) (manifest : Manifest)
    (node : Dependency) (row : ManifestRow) (v : Version)
    (hRoot : node.Id ≠ manifest.Id)
    (hLatest : getPackageLatest index node.Id [] = some (row, v))
    (hMin : Version.lt v node.MinVersion = true) :
    validatorExpand index manifest node =
      ([], [ManifestError.NoSuitableMinVersion ++ spaceSep ++ node.Id]) := by
  simp [validatorExpand, hRoot, hLatest, hMin]

/-- Witness for claim C7: a node requiring A at least at version 2 while
the index stores A only at version 1 yields exactly the
unsatisfied-minimum error with no children. -/
theorem validatorExpand_unsatisfied_minimum_witness :
    validatorExpand c7Index c7Manifest c7Node =
      ([], [ManifestError.NoSuitableMinVersion ++ spaceSep ++ c7Node.Id]) :=
  validatorExpand_unsatisfied_minimum c7Index c7Manifest c7Node
    (ManifestRow.mk ver1 emptyChannel []) ver1 (by decide) rfl rfl

/-- Adding a dependency preserves key uniqueness. -/
theorem Add_noDupKeys (l : DependencyList) (d : Dependency)
    (h : noDupKeys l) : noDupKeys (DependencyList.Add l d) := by
  unfold DependencyList.Add
  split
  · exact h
  · next hany =>
    rw [Bool.not_eq_true, List.any_eq_false] at hany
    rw [noDupKeys, List.pairwise_append]
    refine ⟨h, List.pairwise_singleton _ _, ?_⟩
    intro a ha b hb
    rw [List.mem_singleton] at hb
    subst hb
    have hf := hany a ha
    simp only [Bool.and_eq_true, beq_iff_eq, not_and_or] at hf
    exact hf

/-- Folding additions over a key-unique accumulator keeps it key-unique. -/
theorem foldl_Add_noDupKeys :
    ∀ (l : List Dependency) (acc : DependencyList), noDupKeys acc →
      noDupKeys (l.foldl DependencyList.Add acc)
  | [], _, h => h
  | d :: rest, acc, h => foldl_Add_noDupKeys rest _ (Add_noDupKeys acc d h)

/-- Gathering one installer list after another keeps keys unique. -/
theorem foldl_installers_noDupKeys (t : DependencyType) :
    ∀ (installers : List Installer) (acc : DependencyList), noDupKeys acc →
      noDupKeys (installers.foldl
        (fun depList installer =>
          (installer.Dependencies.filter (fun d => d.DepType == t)).foldl
            DependencyList.Add depList)
        acc)
  | [], _, h => h
  | _ :: rest, acc, h => foldl_installers_noDupKeys t rest _ (foldl_Add_noDupKeys _ acc h)

/-- The gathered declared dependencies hold at most one entry per
(kind, target) pair. -/
theorem GetDependencies_noDupKeys (manifest : Manifest) (t : DependencyType) :
    noDupKeys (GetDependencies manifest t) :=
  foldl_installers_noDupKeys t manifest.Installers [] List.Pairwise.nil

/-- Claim C8: for every node whose identifier equals the manifest under
validation, the expansion callback returns the manifest's own declared
package-kind dependencies gathered over all installer variants with
duplicate targets collapsed, records no error, and consults no index
state at all (the result is the same over every index). -/
theorem validatorExpand_root_branch (index : SQLiteIndex) (manifest : Manifest)
    (node : Dependency) (hRoot : node.Id = manifest.Id) :
    validatorExpand index manifest node =
      (GetDependencies manifest DependencyType.Package, []) ∧
    (∀ index2 : SQLiteIndex,
      validatorExpand index2 manifest node = validatorExpand index manifest node) ∧
    noDupKeys (GetDependencies manifest DependencyType.Package) := by
  refine ⟨?_, ?_, GetDependencies_noDupKeys manifest DependencyType.Package⟩
  · simp [validatorExpand, hRoot]
  · intro index2
    simp [validatorExpand, hRoot]

/-- Witness for claim C8: the root of a manifest whose two installers
both declare the package dependency on A expands to the single collapsed
declared dependency, with no error, on the empty index. -/
theorem validatorExpand_root_branch_witness :
    validatorExpand c8Index c8Manifest (rootDependency c8Manifest) =
      (GetDependencies c8Manifest DependencyType.Package, []) :=
  (validatorExpand_root_branch c8Index c8Manifest (rootDependency c8Manifest) rfl).1

/-- Claim C6: deleting a version strictly below the current latest
version always succeeds, no matter how many dependents exist or what
minimum versions they require. -/
theorem VerifyDelete_nonlatest_safe (index : SQLiteIndex) (manifest : Manifest)
    (row : ManifestRow) (v : Version)
    (hLatest : getPackageLatest index manifest.Id [] = some (row, v))
    (hLt : Version.lt manifest.Version v = true) :
    VerifyDependenciesStructureForManifestDelete index manifest = Except.ok true := by
  by_cases hdep : (GetDependentsById index manifest.Id).isEmpty = true
  · simp [VerifyDependenciesStructureForManifestDelete, hdep]
  · simp [VerifyDependenciesStructureForManifestDelete, hdep, hLatest, hLt]

/-- Witness for claim C6: deleting version 1 of P while version 2 is
stored succeeds even though a dependent requires P at least at
version 2. -/
theorem VerifyDelete_nonlatest_safe_witness :
    VerifyDependenciesStructureForManifestDelete c6Index c6Manifest = Except.ok true :=
  VerifyDelete_nonlatest_safe c6Index c6Manifest (ManifestRow.mk ver2 emptyChannel []) ver2 rfl rfl

/-- Claim C5: deleting the version that is the current latest when no
successor latest exists after excluding the deleted version fails with
the single-version error enumerating the complete dependent set. -/
theorem VerifyDelete_single_version_dependents (index : SQLiteIndex) (manifest : Manifest)
    (row : ManifestRow) (v : Version)
    (hDep : (GetDependentsById index manifest.Id).isEmpty = false)
    (hLatest : getPackageLatest index manifest.Id [] = some (row, v))
    (hOnly : manifest.Version = v)
    (hSucc : getPackageLatest index manifest.Id [manifest.Version] = none) :
    VerifyDependenciesStructureForManifestDelete index manifest =
      Except.error (ThrowOnManifestValidationFailed (GetDependentsById index manifest.Id)
        ManifestError.SingleManifestPackageHasDependencies) := by
  subst hOnly
  simp [VerifyDependenciesStructureForManifestDelete, hDep, hLatest, Version.lt_irrefl, hSucc]

/-- Witness for claim C5: deleting the sole version of P, which D1
depends on, fails with the single-version error listing the dependents. -/
theorem VerifyDelete_single_version_dependents_witness :
    VerifyDependenciesStructureForManifestDelete c5Index c5Manifest =
      Except.error (ThrowOnManifestValidationFailed (GetDependentsById c5Index c5Manifest.Id)
        ManifestError.SingleManifestPackageHasDependencies) :=
  VerifyDelete_single_version_dependents c5Index c5Manifest
    (ManifestRow.mk ver1 emptyChannel []) ver1 rfl rfl rfl rfl

/-- Claim C4: when a successor latest exists, the breaking set is exactly
the dependents whose required minimum version is strictly greater than
the successor latest: precisely that filtered set is enumerated in the
breaking-dependents error, a dependent belongs to it exactly when its
requirement exceeds the successor, and the call succeeds when the set is
empty. -/
theorem VerifyDelete_breaking_dependents (index : SQLiteIndex) (manifest : Manifest)
    (latestRow succRow : ManifestRow) (latestV succV : Version)
    (hDep : (GetDependentsById index manifest.Id).isEmpty = false)
    (hLatest : getPackageLatest index manifest.Id [] = some (latestRow, latestV))
    (hNotLt : Version.lt manifest.Version latestV = false)
    (hSucc : getPackageLatest index manifest.Id [latestV] = some (succRow, succV)) :
    (((GetDependentsById index manifest.Id).filter
        (fun current => Version.lt succV current.2)).isEmpty = false →
      VerifyDependenciesStructureForManifestDelete index manifest =
        Except.error (ThrowOnManifestValidationFailed
          ((GetDependentsById index manifest.Id).filter
            (fun current => Version.lt succV current.2))
          ManifestError.MultiManifestPackageHasDependencies)) ∧
    (((GetDependentsById index manifest.Id).filter
        (fun current => Version.lt succV current.2)).isEmpty = true →
      VerifyDependenciesStructureForManifestDelete index manifest = Except.ok true) ∧
    (∀ d ∈ GetDependentsById index manifest.Id,
      (d ∈ (GetDependentsById index manifest.Id).filter
        (fun current => Version.lt succV current.2) ↔ Version.lt succV d.2 = true)) := by
  refine ⟨fun hbr => ?_, fun hbr => ?_, fun d hd => ?_⟩
  · simp [VerifyDependenciesStructureForManifestDelete, hDep, hLatest, hNotLt, hSucc, hbr]
  · simp [VerifyDependenciesStructureForManifestDelete, hDep, hLatest, hNotLt, hSucc, hbr]
  · simp [List.mem_filter, hd]

/-- Witness for claim C4: P stores versions 1 and 2, D1 requires at
least 1 and D2 at least 2; deleting version 2 resolves successor
latest 1 and fails enumerating exactly the D2 record. -/
theorem VerifyDelete_breaking_dependents_witness :
    VerifyDependenciesStructureForManifestDelete c4Index c4Manifest =
      Except.error (ThrowOnManifestValidationFailed
        ((GetDependentsById c4Index c4Manifest.Id).filter
          (fun current => Version.lt ver1 current.2))
        ManifestError.MultiManifestPackageHasDependencies) :=
  (VerifyDelete_breaking_dependents c4Index c4Manifest
    (ManifestRow.mk ver2 emptyChannel []) (ManifestRow.mk ver1 emptyChannel []) ver2 ver1
    rfl rfl rfl rfl).1 rfl

/-- Claim C1 (amended): the successor latest is resolved with an
exclusion set holding exactly the current latest version; this coincides
with excluding exactly the version being deleted whenever the deleted
version equals the current latest (in particular whenever the deleted
version is present in the index), and on such inputs the check agrees
with the specification-worded variant that excludes the deleted
version. -/
theorem VerifyDelete_successor_exclusion (index : SQLiteIndex) (manifest : Manifest)
    (row : ManifestRow) (v : Version)
    (hLatest : getPackageLatest index manifest.Id [] = some (row, v))
    (hEq : manifest.Version = v) :
    VerifyDependenciesStructureForManifestDelete index manifest =
      VerifyDeleteExcludingDeletedVersion index manifest := by
  subst hEq
  simp [VerifyDependenciesStructureForManifestDelete, VerifyDeleteExcludingDeletedVersion, hLatest]

/-- Witness for claim C1: deleting the sole stored version of P, the
code and the specification-worded variant agree. -/
theorem VerifyDelete_successor_exclusion_witness :
    VerifyDependenciesStructureForManifestDelete c5Index c5Manifest =
      VerifyDeleteExcludingDeletedVersion c5Index c5Manifest :=
  VerifyDelete_successor_exclusion c5Index c5Manifest
    (ManifestRow.mk ver1 emptyChannel []) ver1 rfl rfl

/-- Counterexample for claim C1 as stated: deleting version 2 of A while
the index stores only version 1 (with B depending on A) makes the code
exclude the current latest (version 1), not the deleted version: the
code reports the single-version error, while the variant excluding
exactly the deleted version succeeds, so the two differ. -/
theorem VerifyDelete_successor_exclusion_counterexample :
    VerifyDependenciesStructureForManifestDelete c1Index c1Manifest =
      Except.error (ThrowOnManifestValidationFailed (GetDependentsById c1Index c1Manifest.Id)
        ManifestError.SingleManifestPackageHasDependencies) ∧
    VerifyDeleteExcludingDeletedVersion c1Index c1Manifest = Except.ok true ∧
    VerifyDependenciesStructureForManifestDelete c1Index c1Manifest ≠
      VerifyDeleteExcludingDeletedVersion c1Index c1Manifest := by
  refine ⟨rfl, rfl, ?_⟩
  intro h
  rw [show VerifyDependenciesStructureForManifestDelete c1Index c1Manifest =
      Except.error (ThrowOnManifestValidationFailed (GetDependentsById c1Index c1Manifest.Id)
        ManifestError.SingleManifestPackageHasDependencies) from rfl,
    show VerifyDeleteExcludingDeletedVersion c1Index c1Manifest = Except.ok true from rfl] at h
  exact Except.noConfusion h

/-- Claim C10: with no recorded dependents the delete check succeeds
immediately, even when the package cannot be resolved at all; the fatal
missing-package error is raised only when at least one dependent
exists. -/
theorem VerifyDelete_no_dependents (index : SQLiteIndex) (manifest : Manifest) :
    ((GetDependentsById index manifest.Id).isEmpty = true →
      VerifyDependenciesStructureForManifestDelete index manifest = Except.ok true) ∧
    ((GetDependentsById index manifest.Id).isEmpty = false →
      getPackageLatest index manifest.Id [] = none →
      VerifyDependenciesStructureForManifestDelete index manifest =
        Except.error WinGetError.MissingPackage) := by
  refine ⟨fun h => ?_, fun h hnone => ?_⟩
  · simp [VerifyDependenciesStructureForManifestDelete, h]
  · simp [VerifyDependenciesStructureForManifestDelete, h, hnone]

/-- Witness for claim C10: deleting the manifest of Z, entirely absent
from the index and with no dependents, succeeds instead of raising the
fatal error. -/
theorem VerifyDelete_no_dependents_witness :
    VerifyDependenciesStructureForManifestDelete c10Index c10Manifest = Except.ok true :=
  (VerifyDelete_no_dependents c10Index c10Manifest).1 rfl

/-- Claim C9 (amended): repeated calls of the validator on the same
manifest and unchanged index produce identical outcomes with identical
error sets; the error-set contents are, however, not independent of the
builder traversal order. -/
theorem ValidateManifestDependencies_idempotent (index : SQLiteIndex) (manifest : Manifest) :
    ValidateManifestDependencies index manifest = ValidateManifestDependencies index manifest ∧
    (∀ errs1 errs2 : List String,
      ValidateManifestDependencies index manifest =
        Except.error (WinGetError.ManifestException errs1) →
      ValidateManifestDependencies index manifest =
        Except.error (WinGetError.ManifestException errs2) →
      ∀ s : String, s ∈ errs1 ↔ s ∈ errs2) := by
  refine ⟨rfl, fun errs1 errs2 h1 h2 s => ?_⟩
  rw [h1] at h2
  injection h2 with h3
  injection h3 with h4
  rw [h4]

/-- Witness for claim C9: two reads of the erroring validation of the
manifest depending on the absent package B yield the same membership of
the missing-dependency message. -/
theorem ValidateManifestDependencies_idempotent_witness :
    (ManifestError.MissingManifestDependenciesNode ++ spaceSep ++ pidB) ∈
        (buildValidationGraph c9wIndex c9wManifest).2 ↔
      (ManifestError.MissingManifestDependenciesNode ++ spaceSep ++ pidB) ∈
        (buildValidationGraph c9wIndex c9wManifest).2 :=
  (ValidateManifestDependencies_idempotent c9wIndex c9wManifest).2
    (buildValidationGraph c9wIndex c9wManifest).2 (buildValidationGraph c9wIndex c9wManifest).2
    rfl rfl (ManifestError.MissingManifestDependenciesNode ++ spaceSep ++ pidB)

/-- Counterexample for claim C9 as stated: the error-set contents are
not independent of graph traversal order: package X (latest 1.5) is
required at least at version 1 through A and at least at version 2
through B; servicing the queue from the front expands X with the
satisfied requirement and succeeds, while servicing it from the back
expands X with the unsatisfiable requirement and fails. -/
theorem ValidateManifestDependencies_traversal_counterexample :
    ValidateManifestDependencies c9Index c9Manifest = Except.ok true ∧
    ValidateManifestDependenciesBack c9Index c9Manifest =
      Except.error (WinGetError.ManifestException
        [ManifestError.NoSuitableMinVersion ++ spaceSep ++ pidX]) ∧
    ValidateManifestDependencies c9Index c9Manifest ≠
      ValidateManifestDependenciesBack c9Index c9Manifest := by
  refine ⟨rfl, rfl, ?_⟩
  intro h
  rw [show ValidateManifestDependencies c9Index c9Manifest = Except.ok true from rfl,
    show ValidateManifestDependenciesBack c9Index c9Manifest =
      Except.error (WinGetError.ManifestException
        [ManifestError.NoSuitableMinVersion ++ spaceSep ++ pidX]) from rfl] at h
  exact Except.noConfusion h
